import Mathlib

/-!
Verification of the event-to-execution orchestration engine of the
claude-docker-action repository, as a shallow embedding of its TypeScript
modules:

* `src/github/events.ts`        (trigger evaluation)
* `src/github/operations.ts`    (branch setup)
* `src/mcp/install-mcp-server.ts` (capability configuration merge)
* `src/claude/runner.ts`        (subprocess exit-code protocol)

Modelling conventions:

* A JavaScript value that may be `undefined` is an `Option`.
* A JavaScript property access that would throw a `TypeError` at runtime
  (reading a property of `undefined`) is modelled in `Except String`,
  producing `Except.error "TypeError"`.
* External collaborators (the GitHub REST API, the filesystem, the system
  clock, the spawned processes, and the JSON.parse builtin) are passed in as
  explicit arguments: the API results, the current ISO time string, the
  delivered process events and the parse outcome are inputs of the embedded
  functions, which are otherwise pure translations of the source.
* Machine numbers are modelled as `Int` (the values involved are small
  integers, never reaching any floating-point edge case of JavaScript).
-/

namespace AiDevWorkflow

/-- JavaScript truthiness of a possibly-absent string: `undefined` and the
empty string are falsy. -/
def jsTruthyStr : Option String → Bool
  | none => false
  | some s => s != ""

/-- JavaScript `String.prototype.includes`: literal substring containment,
case-sensitive, with no word-boundary requirement. -/
def jsIncludes (s pat : String) : Bool :=
  s.data.tails.any (fun t => pat.data.isPrefixOf t)

/-- Dereferencing a JavaScript value that the source accesses a property of:
`undefined` throws a `TypeError`. -/
def jsDefined {α : Type} : Option α → Except String α
  | none => Except.error "TypeError"
  | some a => Except.ok a

/-- JavaScript `v || dflt` on a possibly-absent number: `undefined` and `0`
are falsy. -/
def jsOrNum (v : Option Int) (dflt : Int) : Int :=
  match v with
  | some n => if n == 0 then dflt else n
  | none => dflt

/-! ## Event payload model (`src/github/events.ts`)

Only the payload fields that `checkTriggerConditions` and `setupBranch`
read are modelled.  Fields that GitHub may omit, and that the source reads
without a guard, are `Option`s. -/

/-- The event names handled by the trigger evaluator's switch; any other
event falls through the switch with no match. -/
inductive EventName where
  | issue_comment
  | pull_request_review_comment
  | pull_request_review
  | issues
  | pull_request
  | otherEvent (s : String)
deriving DecidableEq

/-- A GitHub user object (`user.login`). -/
structure User where
  login : String
deriving DecidableEq

/-- `payload.comment` of an issue-comment or review-comment event. -/
structure Comment where
  body : Option String
  user : Option User
  id : Option Int
deriving DecidableEq

/-- `payload.review` of a pull-request-review event. -/
structure Review where
  body : Option String
  user : Option User
deriving DecidableEq

/-- `payload.issue` of an issues event. -/
structure Issue where
  body : Option String
  title : Option String
  user : Option User
deriving DecidableEq

/-- `payload.pull_request`: the fields read by `checkTriggerConditions`
(body, user) and by `setupBranch` (state, head.ref, base.ref, commits). -/
structure PullRequest where
  body : Option String
  user : Option User
  state : String
  headRef : String
  baseRef : String
  commits : Option Int
deriving DecidableEq

/-- `payload.assignee` of an issues-assigned event. -/
structure Assignee where
  login : String
deriving DecidableEq

/-- `payload.label` of an issues-labeled event. -/
structure IssueLabel where
  name : String
deriving DecidableEq

/-- The slice of the webhook payload the embedded functions read. -/
structure Payload where
  comment : Option Comment
  issue : Option Issue
  review : Option Review
  pull_request : Option PullRequest
  assignee : Option Assignee
  label : Option IssueLabel
deriving DecidableEq

/-- `GitHubEventContext` from `src/github/events.ts` (the repository and
actor fields, used only for logging and API addressing, are omitted). -/
structure GitHubEventContext where
  eventName : EventName
  eventAction : Option String
  entityNumber : Int
  isPR : Bool
  payload : Payload
deriving DecidableEq

/-- The fields of `DockerActionConfig` (from `src/config/environment`,
outside the embedded modules) that the embedded functions read.  The
`branchPref` field embeds the configured branch-name prefix input. -/
structure DockerActionConfig where
  triggerPhrase : String
  assigneeTrigger : Option String
  labelTrigger : Option String
  directPrompt : Option String
  baseBranch : Option String
  branchPref : String
deriving DecidableEq

/-- `TriggerContext` from `src/github/events.ts`. -/
structure TriggerContext where
  containsTrigger : Bool
  triggerComment : Option String
  triggerUsername : Option String
  commentId : Option String
deriving DecidableEq

/-- The result of a trigger evaluation in which no rule fired: every local
of `checkTriggerConditions` keeps its initial value. -/
def noTriggerCtx : TriggerContext :=
  { containsTrigger := false, triggerComment := none,
    triggerUsername := none, commentId := none }

/-- The body-or-title branch of the issues case (lines 190-199 of
`src/github/events.ts`): the title is examined only in the `else if` after
the body check failed.  `contains0` and `username0` carry the values the
assignee and label checks left in the mutable locals. -/
def issuesTitleCheck (issue : Issue) (config : DockerActionConfig)
    (contains0 : Bool) (username0 : Option String) : Except String TriggerContext :=
  match issue.title with
  | some t =>
    if jsIncludes t config.triggerPhrase then
      match issue.user with
      | none => Except.error "TypeError"
      | some user =>
        Except.ok { containsTrigger := true, triggerComment := some t,
                    triggerUsername := some user.login, commentId := none }
    else
      Except.ok { containsTrigger := contains0, triggerComment := none,
                  triggerUsername := username0, commentId := none }
  | none =>
      Except.ok { containsTrigger := contains0, triggerComment := none,
                  triggerUsername := username0, commentId := none }

/-- The shared shape of the `issue_comment` and `pull_request_review_comment`
cases of `checkTriggerConditions` (lines 141-159): both read
`payload.comment.body` unguarded and, on a match, return the full comment
body, the commenting user and the stringified comment id. -/
def commentCase (comment : Option Comment) (config : DockerActionConfig) :
    Except String TriggerContext :=
  match comment with
  | none => Except.error "TypeError"
  | some c =>
    match c.body with
    | none => Except.error "TypeError"
    | some body =>
      if jsIncludes body config.triggerPhrase then
        match c.user with
        | none => Except.error "TypeError"
        | some user =>
          match c.id with
          | none => Except.error "TypeError"
          | some cid =>
            Except.ok { containsTrigger := true, triggerComment := some body,
                        triggerUsername := some user.login,
                        commentId := some (toString cid) }
      else Except.ok noTriggerCtx

/-- `checkTriggerConditions` from `src/github/events.ts` lines 122-224.
The switch mutates the locals `containsTrigger`, `triggerComment`,
`triggerUsername` and `commentId`; the embedding returns the final record
directly from each branch, which is observably identical. -/
def checkTriggerConditions (context : GitHubEventContext)
    (config : DockerActionConfig) : Except String TriggerContext :=
  if jsTruthyStr config.directPrompt then
    Except.ok { containsTrigger := true, triggerComment := config.directPrompt,
                triggerUsername := none, commentId := none }
  else
    match context.eventName with
    | .issue_comment => commentCase context.payload.comment config
    | .pull_request_review_comment => commentCase context.payload.comment config
    | .pull_request_review =>
      match context.payload.review with
      | none => Except.error "TypeError"
      | some review =>
        match review.body with
        | some body =>
          if jsIncludes body config.triggerPhrase then
            match review.user with
            | none => Except.error "TypeError"
            | some user =>
              Except.ok { containsTrigger := true, triggerComment := some body,
                          triggerUsername := some user.login, commentId := none }
          else Except.ok noTriggerCtx
        | none => Except.ok noTriggerCtx
    | .issues =>
      let assigneeHit : Option String :=
        if jsTruthyStr config.assigneeTrigger
            && context.eventAction == some "assigned" then
          match context.payload.assignee with
          | some a =>
            if some a.login == config.assigneeTrigger then some a.login else none
          | none => none
        else none
      let labelHit : Bool :=
        if jsTruthyStr config.labelTrigger
            && context.eventAction == some "labeled" then
          match context.payload.label with
          | some l => some l.name == config.labelTrigger
          | none => false
        else false
      let contains0 := assigneeHit.isSome || labelHit
      match context.payload.issue with
      | none => Except.error "TypeError"
      | some issue =>
        match issue.body with
        | some body =>
          if jsIncludes body config.triggerPhrase then
            match issue.user with
            | none => Except.error "TypeError"
            | some user =>
              Except.ok { containsTrigger := true, triggerComment := some body,
                          triggerUsername := some user.login, commentId := none }
          else issuesTitleCheck issue config contains0 assigneeHit
        | none => issuesTitleCheck issue config contains0 assigneeHit
    | .pull_request =>
      match context.payload.pull_request with
      | none => Except.error "TypeError"
      | some pr =>
        match pr.body with
        | some body =>
          if jsIncludes body config.triggerPhrase then
            match pr.user with
            | none => Except.error "TypeError"
            | some user =>
              Except.ok { containsTrigger := true, triggerComment := some body,
                          triggerUsername := some user.login, commentId := none }
          else Except.ok noTriggerCtx
        | none => Except.ok noTriggerCtx
    | .otherEvent _ => Except.ok noTriggerCtx

/-! ## Branch setup (`src/github/operations.ts`)

`setupBranch` mixes pure decisions with git/API side effects.  The embedding
returns the decisions and the parameters of the side effects as data; the
two external inputs (the repository's default branch from the API and the
current time's ISO-8601 string) are arguments. -/

/-- `BranchInfo` from `src/github/operations.ts`: `claudeBranch` is present
exactly when a fresh branch was minted (the spec's `isNewlyCreated`). -/
structure BranchInfo where
  baseBranch : String
  claudeBranch : Option String
  currentBranch : String
deriving DecidableEq

/-- The git and ref-creation effects `setupBranch` performs, as data:
which ref is fetched, at which depth, and which ref (if any) is created
through the API. -/
structure GitEffects where
  fetchedRef : String
  fetchDepth : Int
  createdRef : Option String
deriving DecidableEq

/-- Result of the embedded `setupBranch`: the returned record plus the
performed effects. -/
structure SetupBranchResult where
  info : BranchInfo
  effects : GitEffects
deriving DecidableEq

/-- First step of the timestamp formatting: `.replace(/[:-]/g, '')` removes
every colon and dash. -/
def stripColonDash (l : List Char) : List Char :=
  l.filter (fun c => !(c == ':') && !(c == '-'))

/-- Head test for the pattern of the regex `\.\d\d\dZ`: a dot followed by
three digits and a `Z`. -/
def isMsZHead : List Char → Bool
  | '.' :: a :: b :: c :: 'Z' :: _ => a.isDigit && b.isDigit && c.isDigit
  | _ => false

/-- Second step: `.replace(/\.\d\x7b3\x7dZ/, '')` deletes the first
occurrence of a dot, three digits and a `Z` (non-global replace: the scan
stops at the first match). -/
def dropMsZ : List Char → List Char
  | [] => []
  | x :: rest =>
    if isMsZHead (x :: rest) then rest.drop 4
    else x :: dropMsZ rest

/-- Third step: `.split('T').join('_')` replaces every `T` with `_`. -/
def tToUnderscore (l : List Char) : List Char :=
  l.map (fun c => if c == 'T' then '_' else c)

/-- The timestamp computation of `setupBranch` (lines 154-159):
`new Date().toISOString().replace(/[:-]/g, '').replace(/\.\d\x7b3\x7dZ/, '').split('T').join('_')`
applied to the ISO string of the current instant. -/
def formatTimestamp (iso : String) : String :=
  ⟨tToUnderscore (dropMsZ (stripColonDash iso.data))⟩

/-- The branch name minted on line 161:
`branchPrefix + entityType + "-" + entityNumber + "-" + timestamp`. -/
def mintBranchName (pref entityType : String) (entityNumber : Int)
    (timestamp : String) : String :=
  pref ++ entityType ++ "-" ++ toString entityNumber ++ "-" ++ timestamp

/-- The shared tail of `setupBranch` (lines 133-192), reached for non-PR
events and for closed/merged PRs: resolve the source branch, mint a fresh
branch name, create the ref at the source tip, fetch it at depth 1 and
check it out. -/
def createNewBranch (context : GitHubEventContext) (config : DockerActionConfig)
    (defaultBranch : String) (isoNow : String) : SetupBranchResult :=
  let sourceBranch :=
    if jsTruthyStr config.baseBranch then config.baseBranch.getD ""
    else defaultBranch
  let entityType := if context.isPR then "pr" else "issue"
  let timestamp := formatTimestamp isoNow
  let newBranch := mintBranchName config.branchPref entityType
    context.entityNumber timestamp
  { info := { baseBranch := sourceBranch, claudeBranch := some newBranch,
              currentBranch := newBranch },
    effects := { fetchedRef := newBranch, fetchDepth := 1,
                 createdRef := some ("refs/heads/" ++ newBranch) } }

/-- `setupBranch` from `src/github/operations.ts` lines 86-197.  For an
open PR (any state other than closed/merged) the PR's head branch is fetched
at depth `Math.max(prData.commits || 1, 20)` and reused; otherwise the fresh
branch flow of `createNewBranch` runs. -/
def setupBranch (context : GitHubEventContext) (config : DockerActionConfig)
    (defaultBranch : String) (isoNow : String) : Except String SetupBranchResult :=
  if context.isPR then
    match context.payload.pull_request with
    | none => Except.error "TypeError"
    | some prData =>
      if prData.state == "closed" || prData.state == "merged" then
        Except.ok (createNewBranch context config defaultBranch isoNow)
      else
        let branchName := prData.headRef
        let commitCount := jsOrNum prData.commits 1
        let fetchDepth := max commitCount 20
        Except.ok
          { info := { baseBranch := prData.baseRef, claudeBranch := none,
                      currentBranch := branchName },
            effects := { fetchedRef := branchName, fetchDepth := fetchDepth,
                         createdRef := none } }
  else
    Except.ok (createNewBranch context config defaultBranch isoNow)

/-! ## Capability configuration (`src/mcp/install-mcp-server.ts`)

JSON values and JavaScript object-literal spreads are modelled explicitly.
Objects are association lists whose key order is immaterial to the claims;
`spreadMerge` realizes the key-to-value semantics of an object literal that
spreads two values in sequence (later spread wins on key collision). -/

/-- A JSON value, as produced by the JSON.parse builtin. -/
inductive Json where
  | null
  | bool (b : Bool)
  | num (n : Int)
  | str (s : String)
  | arr (elems : List Json)
  | obj (fields : List (String × Json))

/-- Key lookup in a JavaScript object, first match (the construction below
keeps keys unique). -/
def objLookup (fields : List (String × Json)) (k : String) : Option Json :=
  (fields.find? (fun p => p.1 == k)).map (fun p => p.2)

/-- The key-to-value mapping of an object literal spreading `a` then `b`:
entries of `b` win on key collision, all other entries survive. -/
def spreadMerge (a b : List (String × Json)) : List (String × Json) :=
  a.filter (fun p => (b.find? (fun q => q.1 == p.1)).isNone) ++ b

/-- Entries contributed when a JavaScript value is spread into an object
literal: objects contribute their fields, arrays their index-keyed elements,
primitives nothing.  Only objects and arrays reach the spread in
`prepareMcpConfig`, because of the typeof check before it. -/
def jsSpreadEntries : Json → List (String × Json)
  | .obj fields => fields
  | .arr elems => elems.enum.map (fun p => (toString p.1, p.2))
  | _ => []

/-- JavaScript property access `v.k` on a parsed JSON document: a lookup on
objects, `undefined` otherwise. -/
def jsGetProp (v : Json) (k : String) : Option Json :=
  match v with
  | .obj fields => objLookup fields k
  | _ => none

/-- JavaScript `String.prototype.trim`: drop whitespace from both ends
(structural model, evaluable by the kernel). -/
def jsTrim (s : String) : String :=
  ⟨((s.data.dropWhile Char.isWhitespace).reverse.dropWhile
      Char.isWhitespace).reverse⟩

/-- The validation on line 153: `typeof v === "object" && v !== null`.
Arrays satisfy it. -/
def jsTypeofObjectNotNull : Json → Bool
  | .obj _ => true
  | .arr _ => true
  | _ => false

/-- The `github_comment` server descriptor (lines 78-86); the comment id is
added to the environment only when truthy. -/
def githubCommentServer (githubToken owner repo : String)
    (claudeCommentId : Option String) : Json :=
  .obj [("command", .str "npx"),
        ("args", .arr [.str "-y", .str "@anthropic-ai/mcp-server-github"]),
        ("env", .obj
          ([("GITHUB_PERSONAL_ACCESS_TOKEN", .str githubToken),
            ("GITHUB_REPOSITORY", .str (owner ++ "/" ++ repo))] ++
           (if jsTruthyStr claudeCommentId then
              [("GITHUB_COMMENT_ID", .str (claudeCommentId.getD ""))]
            else [])))]

/-- The `github_file_ops` server descriptor (lines 90-98), present only in
commit-signing mode. -/
def githubFileOpsServer (githubToken owner repo branch : String) : Json :=
  .obj [("command", .str "npx"),
        ("args", .arr [.str "-y", .str "@anthropic-ai/mcp-server-github"]),
        ("env", .obj
          [("GITHUB_PERSONAL_ACCESS_TOKEN", .str githubToken),
           ("GITHUB_REPOSITORY", .str (owner ++ "/" ++ repo)),
           ("GITHUB_BRANCH", .str branch)])]

/-- The `github_ci` server descriptor (lines 120-127); its token is
`process.env.ACTIONS_TOKEN || githubToken`. -/
def githubCiServer (actionsToken : Option String)
    (githubToken owner repo : String) : Json :=
  .obj [("command", .str "npx"),
        ("args", .arr [.str "-y", .str "@anthropic-ai/mcp-server-github"]),
        ("env", .obj
          [("GITHUB_PERSONAL_ACCESS_TOKEN",
            .str (if jsTruthyStr actionsToken then actionsToken.getD ""
                  else githubToken)),
           ("GITHUB_REPOSITORY", .str (owner ++ "/" ++ repo))])]

/-- The dockerized `github` server descriptor (lines 131-144), present when
an allowed tool is namespaced under the reserved mcp__github__ prefix. -/
def githubDockerServer (githubToken : String) : Json :=
  .obj [("command", .str "docker"),
        ("args", .arr [.str "run", .str "-i", .str "--rm", .str "-e",
                       .str "GITHUB_PERSONAL_ACCESS_TOKEN",
                       .str "ghcr.io/github/github-mcp-server:sha-721fd3e"]),
        ("env", .obj [("GITHUB_PERSONAL_ACCESS_TOKEN", .str githubToken)])]

/-- Outcome of the probe call `client.actions.listWorkflowRunsForRepo`
(an external API request). -/
inductive ProbeOutcome where
  | ok
  | httpError (status : Int) (message : String)
deriving DecidableEq

/-- `checkActionsReadPermission` from `src/mcp/install-mcp-server.ts` lines
17-47: the probe succeeding yields true; a 403 resource-not-accessible error
yields false, and every other error is logged and also yields false. -/
def checkActionsReadPermission (outcome : ProbeOutcome) : Bool :=
  match outcome with
  | .ok => true
  | .httpError status message =>
    if status == 403 && jsIncludes message "Resource not accessible" then false
    else false

/-- `PrepareConfigParams` (lines 6-15), with `context` reduced to the two
fields read from it (`isPR` and the inputs `useCommitSigning` and the
requested `additionalPermissions` entry for actions). -/
structure PrepareConfigParams where
  githubToken : String
  owner : String
  repo : String
  branch : String
  additionalMcpConfig : Option String
  claudeCommentId : Option String
  allowedTools : List String
  isPR : Bool
  useCommitSigning : Bool
  additionalPermissionsActions : Option String

/-- The warning emitted on lines 114-118 when the live probe denies the
actions read scope (text abridged). -/
def permissionWarning : String :=
  "The github_ci MCP server requires actions: read permission."

/-- The warning emitted on lines 173-175 when the additional config cannot
be parsed or fails the object check (text abridged). -/
def parseWarning : String :=
  "Failed to parse additional MCP config. Using base config only."

/-- Lines 63-145: assembly of `baseMcpConfig.mcpServers`, in source order,
together with the warnings emitted while assembling it.  The `github_ci`
descriptor is appended whenever the event is a PR and actions read
permission was requested; a failed probe only adds a warning. -/
def baseMcpServers (p : PrepareConfigParams) (actionsToken : Option String)
    (probe : ProbeOutcome) : List (String × Json) × List String :=
  let hasGitHubMcpTools :=
    p.allowedTools.any (fun tool => "mcp__github__".isPrefixOf tool)
  let servers0 :=
    [("github_comment",
      githubCommentServer p.githubToken p.owner p.repo p.claudeCommentId)]
  let servers1 :=
    if p.useCommitSigning then
      servers0 ++
        [("github_file_ops",
          githubFileOpsServer p.githubToken p.owner p.repo p.branch)]
    else servers0
  let hasActionsReadPermission := p.additionalPermissionsActions == some "read"
  let step2 :=
    if p.isPR && hasActionsReadPermission then
      let actuallyHasPermission := checkActionsReadPermission probe
      (servers1 ++
         [("github_ci",
           githubCiServer actionsToken p.githubToken p.owner p.repo)],
       if !actuallyHasPermission then [permissionWarning] else [])
    else (servers1, [])
  let servers3 :=
    if hasGitHubMcpTools then
      step2.1 ++ [("github", githubDockerServer p.githubToken)]
    else step2.1
  (servers3, step2.2)

/-- Result of the embedded `prepareMcpConfig`: the configuration that would
be serialized, plus the warnings emitted. -/
structure McpResult where
  config : Json
  warnings : List String

/-- `prepareMcpConfig` from `src/mcp/install-mcp-server.ts` lines 49-184.
`parseResult` is the outcome of the JSON.parse builtin (an external
collaborator) on the supplied additional configuration string; it is
consulted only when that string is present with non-blank trim.  A parse
error or a failed object check is caught, warned about, and answered with
the base configuration built so far (lines 148-179). -/
def prepareMcpConfig (p : PrepareConfigParams) (actionsToken : Option String)
    (probe : ProbeOutcome) (parseResult : Except String Json) : McpResult :=
  let assembled := baseMcpServers p actionsToken probe
  let servers := assembled.1
  let warnings := assembled.2
  let baseConfig : Json := .obj [("mcpServers", .obj servers)]
  match p.additionalMcpConfig with
  | some s =>
    if jsTrim s != "" then
      match parseResult with
      | .ok additionalConfig =>
        if jsTypeofObjectNotNull additionalConfig then
          let mergedServers := spreadMerge servers
            (match jsGetProp additionalConfig "mcpServers" with
             | some v => jsSpreadEntries v
             | none => [])
          let mergedTop := spreadMerge
            (spreadMerge [("mcpServers", .obj servers)]
              (jsSpreadEntries additionalConfig))
            [("mcpServers", .obj mergedServers)]
          { config := .obj mergedTop, warnings := warnings }
        else
          { config := baseConfig, warnings := warnings ++ [parseWarning] }
      | .error _ =>
        { config := baseConfig, warnings := warnings ++ [parseWarning] }
    else { config := baseConfig, warnings := warnings }
  | none => { config := baseConfig, warnings := warnings }

/-- Whether a serialized capability configuration contains a server
descriptor of the given name. -/
def configHasServer (config : Json) (name : String) : Bool :=
  match jsGetProp config "mcpServers" with
  | some v => (jsGetProp v name).isSome
  | none => false

/-! ## Subprocess exit-code protocol (`src/claude/runner.ts`)

The promise of lines 177-216 resolves exactly once, guarded by the
`resolved` flag: the first delivered event (timeout firing, process close,
or process error) decides the exit code, later events are ignored. -/

/-- An event delivered to the exit-code promise of `runClaude`. -/
inductive RunnerEvent where
  | timeoutFired
  | closed (code : Option Int)
  | errored
deriving DecidableEq

/-- `code || 0` on line 204: a null exit code (process killed by a signal)
collapses to 0, as does 0 itself. -/
def jsOrZero : Option Int → Int
  | none => 0
  | some c => if c == 0 then 0 else c

/-- The value each event resolves the promise with: 124 on timeout
(line 196), `code || 0` on close (line 204), 1 on spawn error (line 213). -/
def eventExitCode : RunnerEvent → Int
  | .timeoutFired => 124
  | .closed code => jsOrZero code
  | .errored => 1

/-- The resolved-flag protocol: the first delivered event settles the
promise, every later event is dropped; `none` means the promise never
settles (no event was delivered). -/
def resolveExitCode (events : List RunnerEvent) : Option Int :=
  events.foldl
    (fun acc e =>
      match acc with
      | some v => some v
      | none => some (eventExitCode e))
    none

/-- `ClaudeResult` from `src/claude/runner.ts` lines 26-30. -/
structure ClaudeResult where
  success : Bool
  executionFile : Option String
  exitCode : Int
deriving DecidableEq

/-- The fixed execution-artifact path (line 17). -/
def EXECUTION_FILE : String := "/tmp/claude-execution-output.json"

/-- Lines 237-274 of `runClaude`: once the exit-code promise settles, the
execution artifact is persisted (best effort, with `persistOk` the outcome
of the external write/jq step), and the result reports success exactly when
the resolved exit code is 0.  `output` is the captured standard output;
on a nonzero exit code the artifact is attempted only when output is
nonempty.  `none` means the promise never settled and `runClaude` does not
return. -/
def runClaudeOutcome (events : List RunnerEvent) (output : String)
    (persistOk : Bool) : Option ClaudeResult :=
  match resolveExitCode events with
  | none => none
  | some exitCode =>
    let executionFile :=
      if exitCode == 0 then
        (if persistOk then some EXECUTION_FILE else none)
      else if output != "" then
        (if persistOk then some EXECUTION_FILE else none)
      else none
    some { success := exitCode == 0, executionFile := executionFile,
           exitCode := exitCode }

/-! ## Theorems -/

/-- Once the exit-code promise is settled, later events cannot change it. -/
theorem foldl_resolve_some (l : List RunnerEvent) (v : Int) :
    List.foldl
      (fun acc e =>
        match acc with
        | some w => some w
        | none => some (eventExitCode e))
      (some v) l = some v := by
  induction l with
  | nil => rfl
  | cons e t ih => rw [List.foldl_cons]; exact ih

/-- The first delivered event decides the resolved exit code. -/
theorem resolveExitCode_cons (e : RunnerEvent) (rest : List RunnerEvent) :
    resolveExitCode (e :: rest) = some (eventExitCode e) := by
  unfold resolveExitCode
  rw [List.foldl_cons]
  exact foldl_resolve_some rest (eventExitCode e)

/-- C3: whenever the assistant process has not exited within the timeout
(the timeout fires before any close or error event), the returned result
has exit code 124 and reports failure, regardless of the partial output
captured and regardless of any exit status the process reports later. -/
theorem c3_timeout_yields_124 (rest : List RunnerEvent) (output : String)
    (persistOk : Bool) :
    ∃ r, runClaudeOutcome (RunnerEvent.timeoutFired :: rest) output persistOk
        = some r
      ∧ r.exitCode = 124 ∧ r.success = false := by
  unfold runClaudeOutcome
  rw [resolveExitCode_cons]
  exact ⟨_, rfl, rfl, rfl⟩

/-- C10: when the close event delivers a null exit code (process killed by
a signal) before the timeout fires, `code || 0` maps it to exit code 0 and
the run is reported as successful. -/
theorem c10_null_close_reports_success (rest : List RunnerEvent)
    (output : String) (persistOk : Bool) :
    ∃ r, runClaudeOutcome (RunnerEvent.closed none :: rest) output persistOk
        = some r
      ∧ r.exitCode = 0 ∧ r.success = true := by
  unfold runClaudeOutcome
  rw [resolveExitCode_cons]
  exact ⟨_, rfl, rfl, rfl⟩

/-- A string with the pattern embedded anywhere passes the includes test. -/
theorem jsIncludes_of_append (pre pat post : String) :
    jsIncludes (pre ++ pat ++ post) pat = true := by
  unfold jsIncludes
  rw [List.any_eq_true]
  refine ⟨pat.data ++ post.data, ?_, ?_⟩
  · rw [List.mem_tails]
    exact ⟨pre.data, by simp [String.data_append]⟩
  · exact List.isPrefixOf_iff_prefix.mpr ⟨post.data, rfl⟩

/-- C8: for a comment-bearing event (issue comment or PR review comment)
whose comment body contains the trigger phrase as a literal substring, and
with no direct instruction configured, the evaluator reports a match whose
matchedText is the full comment body, regardless of the surrounding text. -/
theorem c8_comment_substring_triggers (ev : EventName)
    (hev : ev = EventName.issue_comment
         ∨ ev = EventName.pull_request_review_comment)
    (act : Option String) (n : Int) (ispr : Bool) (p : Payload)
    (u : User) (cid : Int) (pre post : String)
    (cfg : DockerActionConfig) (hdp : cfg.directPrompt = none)
    (hc : p.comment
        = some ⟨some (pre ++ cfg.triggerPhrase ++ post), some u, some cid⟩) :
    checkTriggerConditions ⟨ev, act, n, ispr, p⟩ cfg
      = Except.ok ⟨true, some (pre ++ cfg.triggerPhrase ++ post),
                   some u.login, some (toString cid)⟩ := by
  rcases hev with h | h <;> subst h <;>
    simp [checkTriggerConditions, commentCase, hdp, hc, jsTruthyStr,
          jsIncludes_of_append]

/-- Witness for C8 at a concrete comment event. -/
theorem c8_witness :
    checkTriggerConditions
      ⟨EventName.issue_comment, none, 42, false,
       ⟨some ⟨some ("please " ++ "@claude" ++ " fix"), some ⟨"alice"⟩, some 7⟩,
        none, none, none, none, none⟩⟩
      ⟨"@claude", none, none, none, none, "claude/"⟩
      = Except.ok ⟨true, some ("please " ++ "@claude" ++ " fix"),
                   some "alice", some "7"⟩ :=
  c8_comment_substring_triggers EventName.issue_comment (Or.inl rfl)
    none 42 false _ ⟨"alice"⟩ 7 "please " " fix" _ rfl rfl

/-- C2 counterexample: on an issues event whose body and title both contain
the trigger phrase, the evaluator returns the BODY as matchedText, not the
title, because the title check sits in an else-if behind the body check. -/
theorem c2_counterexample :
    checkTriggerConditions
      ⟨EventName.issues, some "opened", 7, false,
       ⟨none,
        some ⟨some "body @claude", some "title @claude", some ⟨"alice"⟩⟩,
        none, none, none, none⟩⟩
      ⟨"@claude", none, none, none, none, "claude/"⟩
      = Except.ok ⟨true, some "body @claude", some "alice", none⟩
    ∧ jsIncludes "body @claude" "@claude" = true
    ∧ jsIncludes "title @claude" "@claude" = true
    ∧ (some "body @claude" : Option String) ≠ some "title @claude" := by
  refine ⟨rfl, rfl, rfl, by decide⟩

/-- C2 amended: on an issue-opened/assigned/labeled event in which both the
issue body and the issue title contain the trigger phrase, the body check
short-circuits the title check (an else-if), so the BODY's content is the
returned matchedText: the body overrides the title. -/
theorem c2_amended_body_overrides_title (act : Option String) (n : Int)
    (ispr : Bool) (p : Payload) (u : User) (pre1 post1 pre2 post2 : String)
    (cfg : DockerActionConfig) (hdp : cfg.directPrompt = none)
    (hi : p.issue = some ⟨some (pre1 ++ cfg.triggerPhrase ++ post1),
                          some (pre2 ++ cfg.triggerPhrase ++ post2), some u⟩) :
    checkTriggerConditions ⟨EventName.issues, act, n, ispr, p⟩ cfg
      = Except.ok ⟨true, some (pre1 ++ cfg.triggerPhrase ++ post1),
                   some u.login, none⟩ := by
  simp [checkTriggerConditions, hdp, hi, jsTruthyStr, jsIncludes_of_append]

/-- Witness for the amended C2 at a concrete issues event. -/
theorem c2_witness :
    checkTriggerConditions
      ⟨EventName.issues, none, 7, false,
       ⟨none,
        some ⟨some ("x " ++ "@claude" ++ " y"), some ("a " ++ "@claude" ++ " b"),
              some ⟨"alice"⟩⟩,
        none, none, none, none⟩⟩
      ⟨"@claude", none, none, none, none, "claude/"⟩
      = Except.ok ⟨true, some ("x " ++ "@claude" ++ " y"), some "alice", none⟩ :=
  c2_amended_body_overrides_title none 7 false _ ⟨"alice"⟩
    "x " " y" "a " " b" _ rfl rfl

/-- C9 counterexample: an issue-comment event whose payload carries no
comment object makes the evaluator throw a TypeError (reading `body` of
`undefined`), so the evaluator is not a total function. -/
theorem c9_counterexample :
    checkTriggerConditions
      ⟨EventName.issue_comment, none, 1, false,
       ⟨none, none, none, none, none, none⟩⟩
      ⟨"@claude", none, none, none, none, "claude/"⟩
      = Except.error "TypeError" := rfl

/-- C9 amended: absence of the issue body and title, of the review body, or
of the PR body is tolerated as no match; but the evaluator is not total: an
absent comment object, or an absent comment body, on a comment-bearing
event throws a TypeError. -/
theorem c9_amended_partial_totality (cfg : DockerActionConfig)
    (hdp : cfg.directPrompt = none) (hasg : cfg.assigneeTrigger = none)
    (hlbl : cfg.labelTrigger = none) (act : Option String) (n : Int)
    (ispr : Bool) (p1 p2 p3 p4 p5 : Payload) (u : Option User)
    (st hr br : String) (cm : Option Int)
    (hi : p1.issue = some ⟨none, none, u⟩)
    (hrv : p2.review = some ⟨none, u⟩)
    (hpr : p3.pull_request = some ⟨none, u, st, hr, br, cm⟩)
    (hc4 : p4.comment = none)
    (hc5 : p5.comment = some ⟨none, u, none⟩) :
    checkTriggerConditions ⟨EventName.issues, act, n, ispr, p1⟩ cfg
        = Except.ok noTriggerCtx
    ∧ checkTriggerConditions ⟨EventName.pull_request_review, act, n, ispr, p2⟩ cfg
        = Except.ok noTriggerCtx
    ∧ checkTriggerConditions ⟨EventName.pull_request, act, n, ispr, p3⟩ cfg
        = Except.ok noTriggerCtx
    ∧ checkTriggerConditions ⟨EventName.issue_comment, act, n, ispr, p4⟩ cfg
        = Except.error "TypeError"
    ∧ checkTriggerConditions
        ⟨EventName.pull_request_review_comment, act, n, ispr, p5⟩ cfg
        = Except.error "TypeError" := by
  refine ⟨?_, ?_, ?_, ?_, ?_⟩ <;>
    simp [checkTriggerConditions, commentCase, issuesTitleCheck, noTriggerCtx,
          hdp, hasg, hlbl, hi, hrv, hpr, hc4, hc5, jsTruthyStr]

/-- Witness for the amended C9 at concrete degenerate payloads. -/
theorem c9_witness :
    checkTriggerConditions
      ⟨EventName.issues, none, 1, false,
       ⟨none, some ⟨none, none, none⟩, none, none, none, none⟩⟩
      ⟨"@claude", none, none, none, none, "claude/"⟩
      = Except.ok noTriggerCtx
    ∧ checkTriggerConditions
        ⟨EventName.issue_comment, none, 1, false,
         ⟨some ⟨none, none, none⟩, none, none, none, none, none⟩⟩
        ⟨"@claude", none, none, none, none, "claude/"⟩
      = Except.error "TypeError" := by
  have h := c9_amended_partial_totality
    ⟨"@claude", none, none, none, none, "claude/"⟩ rfl rfl rfl none 1 false
    ⟨none, some ⟨none, none, none⟩, none, none, none, none⟩
    ⟨none, none, some ⟨none, none⟩, none, none, none⟩
    ⟨none, none, none, some ⟨none, none, "open", "h", "b", none⟩, none, none⟩
    ⟨none, none, none, none, none, none⟩
    ⟨some ⟨none, none, none⟩, none, none, none, none, none⟩
    none "open" "h" "b" none rfl rfl rfl rfl rfl
  exact ⟨h.1, h.2.2.2.2⟩

/-- Equality of the fetch depth with the claim's formula: `commits || 1`
then `max` with 20 equals `max commits 20` for every commit count. -/
theorem jsOrNum_max20 (c : Int) : max (jsOrNum (some c) 1) 20 = max c 20 := by
  unfold jsOrNum
  by_cases h : c = 0
  · simp [h]
  · simp [beq_iff_eq, h]

/-- C4: for a pull-request event whose PR is open, no new ref is created,
the returned record reuses the PR head ref as the working branch with the
PR base ref as base, and the head ref is fetched at depth
`max(commitCount, 20)`. -/
theorem c4_open_pr_reuses_branch (ev : EventName) (act : Option String)
    (n : Int) (p : Payload) (body : Option String) (u : Option User)
    (href bref : String) (c : Int) (cfg : DockerActionConfig)
    (defaultBranch isoNow : String) :
    setupBranch
      ⟨ev, act, n, true,
       { p with pull_request := some ⟨body, u, "open", href, bref, some c⟩ }⟩
      cfg defaultBranch isoNow
      = Except.ok ⟨⟨bref, none, href⟩, ⟨href, max c 20, none⟩⟩ := by
  simp [setupBranch, jsOrNum_max20]

/-- A digit character differs from any non-digit character, at the level of
boolean equality tests. -/
theorem digit_beq_false (ch t : Char) (h : ch.isDigit = true)
    (ht : t.isDigit = false) : (ch == t) = false := by
  apply beq_eq_false_iff_ne.mpr
  intro he
  rw [he, ht] at h
  exact absurd h (by decide)

/-- Colon-dash stripping distributes over append. -/
theorem stripColonDash_append (l1 l2 : List Char) :
    stripColonDash (l1 ++ l2) = stripColonDash l1 ++ stripColonDash l2 :=
  List.filter_append l1 l2

/-- Colon-dash stripping keeps a list of digits intact. -/
theorem stripColonDash_digits (l : List Char)
    (h : ∀ ch ∈ l, ch.isDigit = true) : stripColonDash l = l := by
  apply List.filter_eq_self.mpr
  intro a ha
  rw [digit_beq_false a ':' (h a ha) (by decide),
      digit_beq_false a '-' (h a ha) (by decide)]
  rfl

/-- The millisecond pattern fails to start at any non-dot character. -/
theorem isMsZHead_cons_ne (x : Char) (rest : List Char) (hx : x ≠ '.') :
    isMsZHead (x :: rest) = false := by
  unfold isMsZHead
  split
  · rename_i heq
    exact absurd (by injection heq) hx
  · rfl

/-- Deleting the first millisecond pattern from a list that has its only dot
right before that pattern removes exactly the dot, the three digits and
the `Z`. -/
theorem dropMsZ_no_dot (L rest : List Char) (a b c : Char)
    (hL : ∀ x ∈ L, x ≠ '.') (ha : a.isDigit = true) (hb : b.isDigit = true)
    (hc : c.isDigit = true) :
    dropMsZ (L ++ '.' :: a :: b :: c :: 'Z' :: rest) = L ++ rest := by
  induction L with
  | nil =>
    show dropMsZ ('.' :: a :: b :: c :: 'Z' :: rest) = rest
    rw [dropMsZ]
    have hhead : isMsZHead ('.' :: a :: b :: c :: 'Z' :: rest) = true := by
      show (a.isDigit && b.isDigit && c.isDigit) = true
      rw [ha, hb, hc]
      rfl
    rw [hhead]
    rfl
  | cons x L ih =>
    have hx : x ≠ '.' := hL x (List.mem_cons_self x L)
    show dropMsZ (x :: (L ++ '.' :: a :: b :: c :: 'Z' :: rest)) = x :: (L ++ rest)
    rw [dropMsZ, isMsZHead_cons_ne _ _ hx]
    simp only [Bool.false_eq_true, if_false]
    rw [ih (fun z hz => hL z (List.mem_cons_of_mem x hz))]

/-- Underscore substitution distributes over append. -/
theorem tToUnderscore_append (l1 l2 : List Char) :
    tToUnderscore (l1 ++ l2) = tToUnderscore l1 ++ tToUnderscore l2 :=
  List.map_append _ _ _

/-- Underscore substitution keeps a list of digits intact. -/
theorem tToUnderscore_digits (l : List Char)
    (h : ∀ ch ∈ l, ch.isDigit = true) : tToUnderscore l = l := by
  induction l with
  | nil => rfl
  | cons x t ih =>
    show (if (x == 'T') = true then '_' else x)
        :: tToUnderscore t = x :: t
    rw [digit_beq_false x 'T' (h x (List.mem_cons_self x t)) (by decide)]
    simp only [Bool.false_eq_true, if_false]
    rw [ih (fun z hz => h z (List.mem_cons_of_mem x hz))]

/-- A digit character is distinct from any non-digit character. -/
theorem digit_ne (ch t : Char) (h : ch.isDigit = true)
    (ht : t.isDigit = false) : ch ≠ t := by
  intro he
  rw [he, ht] at h
  exact Bool.false_ne_true h

/-- The whole timestamp pipeline evaluated on the character list of a
well-formed ISO-8601 UTC instant. -/
theorem pipeline_eval (Y M D H Mi S : List Char) (a b c : Char)
    (hY : ∀ ch ∈ Y, ch.isDigit = true) (hM : ∀ ch ∈ M, ch.isDigit = true)
    (hD : ∀ ch ∈ D, ch.isDigit = true) (hH : ∀ ch ∈ H, ch.isDigit = true)
    (hMi : ∀ ch ∈ Mi, ch.isDigit = true) (hS : ∀ ch ∈ S, ch.isDigit = true)
    (ha : a.isDigit = true) (hb : b.isDigit = true) (hc : c.isDigit = true) :
    tToUnderscore (dropMsZ (stripColonDash
      (Y ++ '-' :: (M ++ '-' :: (D ++ 'T' :: (H ++ ':' :: (Mi ++ ':' ::
        (S ++ '.' :: a :: b :: c :: ['Z']))))))))
      = Y ++ (M ++ (D ++ '_' :: (H ++ (Mi ++ S)))) := by
  have scDash : ∀ l : List Char, stripColonDash ('-' :: l) = stripColonDash l :=
    fun _ => rfl
  have scColon : ∀ l : List Char, stripColonDash (':' :: l) = stripColonDash l :=
    fun _ => rfl
  have scT : ∀ l : List Char, stripColonDash ('T' :: l) = 'T' :: stripColonDash l :=
    fun _ => rfl
  have predDigit : ∀ x : Char, x.isDigit = true →
      (!(x == ':') && !(x == '-')) = true := by
    intro x hx
    rw [digit_beq_false x ':' hx (by decide), digit_beq_false x '-' hx (by decide)]
    rfl
  have scDotZ : stripColonDash ('.' :: a :: b :: c :: ['Z'])
      = '.' :: a :: b :: c :: ['Z'] := by
    apply List.filter_eq_self.mpr
    intro x hx
    simp only [List.mem_cons, List.mem_singleton] at hx
    rcases hx with h1 | h1 | h1 | h1 | h1 | h1
    · rw [h1]; rfl
    · rw [h1]; exact predDigit a ha
    · rw [h1]; exact predDigit b hb
    · rw [h1]; exact predDigit c hc
    · rw [h1]; rfl
    · exact absurd h1 (List.not_mem_nil x)
  have hstrip : stripColonDash
      (Y ++ '-' :: (M ++ '-' :: (D ++ 'T' :: (H ++ ':' :: (Mi ++ ':' ::
        (S ++ '.' :: a :: b :: c :: ['Z']))))))
      = Y ++ (M ++ (D ++ 'T' :: (H ++ (Mi ++
          (S ++ '.' :: a :: b :: c :: ['Z']))))) := by
    rw [stripColonDash_append, stripColonDash_digits Y hY, scDash,
        stripColonDash_append, stripColonDash_digits M hM, scDash,
        stripColonDash_append, stripColonDash_digits D hD, scT,
        stripColonDash_append, stripColonDash_digits H hH, scColon,
        stripColonDash_append, stripColonDash_digits Mi hMi, scColon,
        stripColonDash_append, stripColonDash_digits S hS, scDotZ]
  rw [hstrip]
  have hshape : Y ++ (M ++ (D ++ 'T' :: (H ++ (Mi ++
      (S ++ '.' :: a :: b :: c :: ['Z'])))))
      = (Y ++ (M ++ (D ++ 'T' :: (H ++ (Mi ++ S)))))
          ++ '.' :: a :: b :: c :: 'Z' :: [] := by
    simp [List.append_assoc]
  rw [hshape]
  have hL : ∀ x ∈ Y ++ (M ++ (D ++ 'T' :: (H ++ (Mi ++ S)))), x ≠ '.' := by
    intro x hx
    simp only [List.mem_append, List.mem_cons] at hx
    rcases hx with h1 | h1 | h1 | h1 | h1 | h1 | h1
    · exact digit_ne x '.' (hY x h1) (by decide)
    · exact digit_ne x '.' (hM x h1) (by decide)
    · exact digit_ne x '.' (hD x h1) (by decide)
    · rw [h1]; decide
    · exact digit_ne x '.' (hH x h1) (by decide)
    · exact digit_ne x '.' (hMi x h1) (by decide)
    · exact digit_ne x '.' (hS x h1) (by decide)
  rw [dropMsZ_no_dot _ _ a b c hL ha hb hc, List.append_nil]
  have tuT : ∀ l : List Char, tToUnderscore ('T' :: l) = '_' :: tToUnderscore l :=
    fun _ => rfl
  rw [tToUnderscore_append, tToUnderscore_digits Y hY,
      tToUnderscore_append, tToUnderscore_digits M hM,
      tToUnderscore_append, tToUnderscore_digits D hD, tuT,
      tToUnderscore_append, tToUnderscore_digits H hH,
      tToUnderscore_append, tToUnderscore_digits Mi hMi,
      tToUnderscore_digits S hS]

/-- The timestamp of `setupBranch` on a well-formed ISO-8601 UTC string is
the date digits, an underscore, and the time digits. -/
theorem formatTimestamp_eval (y mo d hh mi ss : String) (a b c : Char)
    (hy : ∀ ch ∈ y.data, ch.isDigit = true)
    (hmo : ∀ ch ∈ mo.data, ch.isDigit = true)
    (hd2 : ∀ ch ∈ d.data, ch.isDigit = true)
    (hhh : ∀ ch ∈ hh.data, ch.isDigit = true)
    (hmi : ∀ ch ∈ mi.data, ch.isDigit = true)
    (hss : ∀ ch ∈ ss.data, ch.isDigit = true)
    (ha : a.isDigit = true) (hb : b.isDigit = true) (hc : c.isDigit = true) :
    formatTimestamp (y ++ "-" ++ mo ++ "-" ++ d ++ "T" ++ hh ++ ":" ++ mi
        ++ ":" ++ ss ++ "." ++ String.mk [a, b, c] ++ "Z")
      = y ++ mo ++ d ++ "_" ++ hh ++ mi ++ ss := by
  apply String.ext
  show tToUnderscore (dropMsZ (stripColonDash _)) = _
  have hdata : (y ++ "-" ++ mo ++ "-" ++ d ++ "T" ++ hh ++ ":" ++ mi
      ++ ":" ++ ss ++ "." ++ String.mk [a, b, c] ++ "Z").data
      = y.data ++ '-' :: (mo.data ++ '-' :: (d.data ++ 'T' :: (hh.data
          ++ ':' :: (mi.data ++ ':' :: (ss.data
          ++ '.' :: a :: b :: c :: ['Z']))))) := by
    simp only [String.data_append, List.append_assoc,
      show ("-" : String).data = ['-'] from rfl,
      show ("T" : String).data = ['T'] from rfl,
      show (":" : String).data = [':'] from rfl,
      show ("." : String).data = ['.'] from rfl,
      show ("Z" : String).data = ['Z'] from rfl,
      show (String.mk [a, b, c]).data = [a, b, c] from rfl,
      List.singleton_append, List.cons_append, List.nil_append]
  rw [hdata,
      pipeline_eval y.data mo.data d.data hh.data mi.data ss.data a b c
        hy hmo hd2 hhh hmi hss ha hb hc]
  simp only [String.data_append, List.append_assoc,
    show ("_" : String).data = ['_'] from rfl, List.singleton_append,
    List.cons_append, List.nil_append]

/-- A list of digits contains no underscore. -/
theorem count_underscore_digits (l : List Char)
    (h : ∀ ch ∈ l, ch.isDigit = true) : l.count '_' = 0 := by
  rw [List.count_eq_zero]
  intro hmem
  exact absurd (h '_' hmem) (by decide)

/-- Branch names minted for the same entity at distinct timestamps are
distinct: the common prefix cancels. -/
theorem mintBranchName_ne_of_ts_ne (pref kind : String) (n : Int)
    (ts1 ts2 : String) (hne : ts1 ≠ ts2) :
    mintBranchName pref kind n ts1 ≠ mintBranchName pref kind n ts2 := by
  intro h
  apply hne
  have hd := congrArg String.data h
  simp only [mintBranchName, String.data_append, List.append_assoc] at hd
  have h1 := List.append_cancel_left hd
  have h2 := List.append_cancel_left h1
  have h3 := List.append_cancel_left h2
  have h4 := List.append_cancel_left h3
  have h5 := List.append_cancel_left h4
  exact String.ext h5

/-- C5: on every non-PR event and every closed/merged-PR event the minted
working branch is `branchPrefix + entityKind + "-" + entityNumber + "-" +
timestamp` with entityKind `issue` or `pr`; the timestamp of a well-formed
ISO instant is digits plus a single underscore separating date and time;
and two invocations for the same entity at distinct timestamps mint
distinct names. -/
theorem c5_minted_branch_unique (cfg : DockerActionConfig)
    (defaultBranch : String) (p : Payload) (ev : EventName)
    (act : Option String) (n : Int) (y mo d hh mi ss : String) (a b c : Char)
    (hy : ∀ ch ∈ y.data, ch.isDigit = true)
    (hmo : ∀ ch ∈ mo.data, ch.isDigit = true)
    (hd2 : ∀ ch ∈ d.data, ch.isDigit = true)
    (hhh : ∀ ch ∈ hh.data, ch.isDigit = true)
    (hmi : ∀ ch ∈ mi.data, ch.isDigit = true)
    (hss : ∀ ch ∈ ss.data, ch.isDigit = true)
    (ha : a.isDigit = true) (hb : b.isDigit = true) (hc : c.isDigit = true)
    (iso : String)
    (hiso : iso = y ++ "-" ++ mo ++ "-" ++ d ++ "T" ++ hh ++ ":" ++ mi
        ++ ":" ++ ss ++ "." ++ String.mk [a, b, c] ++ "Z")
    (prd : PullRequest)
    (hstate : prd.state = "closed" ∨ prd.state = "merged")
    (kind ts1 ts2 : String) (hne : ts1 ≠ ts2) :
    formatTimestamp iso = y ++ mo ++ d ++ "_" ++ hh ++ mi ++ ss
    ∧ (formatTimestamp iso).data.count '_' = 1
    ∧ (∀ ch ∈ (formatTimestamp iso).data, ch = '_' ∨ ch.isDigit = true)
    ∧ (setupBranch ⟨ev, act, n, false, p⟩ cfg defaultBranch iso).map
        (fun r => r.info.claudeBranch)
      = Except.ok (some (cfg.branchPref ++ "issue" ++ "-" ++ toString n
          ++ "-" ++ formatTimestamp iso))
    ∧ (setupBranch ⟨ev, act, n, true, { p with pull_request := some prd }⟩
        cfg defaultBranch iso).map (fun r => r.info.claudeBranch)
      = Except.ok (some (cfg.branchPref ++ "pr" ++ "-" ++ toString n
          ++ "-" ++ formatTimestamp iso))
    ∧ mintBranchName cfg.branchPref kind n ts1
        ≠ mintBranchName cfg.branchPref kind n ts2 := by
  subst hiso
  have h1 := formatTimestamp_eval y mo d hh mi ss a b c
    hy hmo hd2 hhh hmi hss ha hb hc
  refine ⟨h1, ?_, ?_, ?_, ?_, mintBranchName_ne_of_ts_ne _ _ _ _ _ hne⟩
  · rw [h1]
    simp only [String.data_append, List.count_append]
    rw [count_underscore_digits y.data hy, count_underscore_digits mo.data hmo,
        count_underscore_digits d.data hd2, count_underscore_digits hh.data hhh,
        count_underscore_digits mi.data hmi, count_underscore_digits ss.data hss]
    rfl
  · rw [h1]
    intro ch hch
    simp only [String.data_append, List.mem_append,
      show ("_" : String).data = ['_'] from rfl, List.mem_singleton] at hch
    rcases hch with ((((((h2 | h2) | h2) | h2) | h2) | h2) | h2)
    · exact Or.inr (hy ch h2)
    · exact Or.inr (hmo ch h2)
    · exact Or.inr (hd2 ch h2)
    · exact Or.inl h2
    · exact Or.inr (hhh ch h2)
    · exact Or.inr (hmi ch h2)
    · exact Or.inr (hss ch h2)
  · simp [setupBranch, createNewBranch, mintBranchName, Except.map]
  · rcases hstate with h2 | h2 <;>
      simp [setupBranch, createNewBranch, mintBranchName, Except.map, h2]

/-- Witness for C5 at the concrete instants of the specification's example:
issue 7 at two timestamps one second apart. -/
theorem c5_witness :
    formatTimestamp ("2025" ++ "-" ++ "01" ++ "-" ++ "01" ++ "T" ++ "00"
        ++ ":" ++ "00" ++ ":" ++ "00" ++ "." ++ String.mk ['0', '0', '0']
        ++ "Z")
      = "2025" ++ "01" ++ "01" ++ "_" ++ "00" ++ "00" ++ "00"
    ∧ mintBranchName "claude/" "issue" 7 "20250101_000000"
        ≠ mintBranchName "claude/" "issue" 7 "20250101_000001" := by
  have h := c5_minted_branch_unique
    ⟨"@claude", none, none, none, none, "claude/"⟩ "main"
    ⟨none, none, none, none, none, none⟩ EventName.issues none 7
    "2025" "01" "01" "00" "00" "00" '0' '0' '0'
    (by decide) (by decide) (by decide) (by decide) (by decide) (by decide)
    (by decide) (by decide) (by decide) _ rfl
    ⟨none, none, "closed", "h", "b", none⟩ (Or.inl rfl)
    "issue" "20250101_000000" "20250101_000001" (by decide)
  exact ⟨h.1, h.2.2.2.2.2⟩

/-- Looking a key up in the filtered half of a spread: when the override
lacks the key, filtering away overridden entries does not change the
result of the lookup. -/
theorem find?_filter_keys (a b : List (String × Json)) (k : String)
    (hfb : b.find? (fun p => p.1 == k) = none) :
    (a.filter (fun p => (b.find? (fun q => q.1 == p.1)).isNone)).find?
      (fun p => p.1 == k) = a.find? (fun p => p.1 == k) := by
  induction a with
  | nil => rfl
  | cons x a ih =>
    rw [List.filter_cons]
    by_cases hxk : (x.1 == k) = true
    · have hx1 : x.1 = k := beq_iff_eq.mp hxk
      have hsurv : ((b.find? (fun q => q.1 == x.1)).isNone = true) := by
        rw [hx1, hfb]; rfl
      rw [if_pos hsurv]
      simp [List.find?_cons, hxk]
    · by_cases hsurv : ((b.find? (fun q => q.1 == x.1)).isNone = true)
      · rw [if_pos hsurv]
        simp [List.find?_cons, hxk, ih]
      · rw [if_neg hsurv]
        simp [List.find?_cons, hxk, ih]

/-- No entry with an overridden key survives the filter of a spread. -/
theorem find?_filtered_none (a b : List (String × Json)) (k : String)
    (hb : (b.find? (fun p => p.1 == k)).isSome = true) :
    (a.filter (fun p => (b.find? (fun q => q.1 == p.1)).isNone)).find?
      (fun p => p.1 == k) = none := by
  rw [List.find?_eq_none]
  intro x hx hxk
  have hkeep := (List.mem_filter.mp hx).2
  rw [beq_iff_eq.mp hxk] at hkeep
  rw [Option.isNone_iff_eq_none.mp hkeep] at hb
  exact Bool.false_ne_true hb

/-- The key-to-value semantics of a two-value spread: the override is
consulted first, the base answers otherwise. -/
theorem objLookup_spreadMerge (a b : List (String × Json)) (k : String) :
    objLookup (spreadMerge a b) k = (objLookup b k).or (objLookup a k) := by
  unfold objLookup spreadMerge
  rw [List.find?_append]
  cases hfb : b.find? (fun p => p.1 == k) with
  | none =>
    rw [find?_filter_keys a b k hfb]
    cases a.find? (fun p => p.1 == k) <;> rfl
  | some q =>
    rw [find?_filtered_none a b k (by rw [hfb]; rfl)]
    rfl

/-- C6: the merged server mapping of `prepareMcpConfig` takes the override
document's entry for every colliding key, keeps every base entry whose key
the override lacks, includes every override-only key, and on the spec's
example merges base a=1, b=2 with override b=3, c=4 into a=1, b=3, c=4. -/
theorem c6_merge_override_wins (p : PrepareConfigParams)
    (actionsToken : Option String) (probe : ProbeOutcome) (s : String)
    (f g : List (String × Json)) (hAdd : p.additionalMcpConfig = some s)
    (htrim : jsTrim s ≠ "")
    (hmcp : objLookup f "mcpServers" = some (Json.obj g))
    (k : String) :
    jsGetProp (prepareMcpConfig p actionsToken probe
        (Except.ok (Json.obj f))).config "mcpServers"
      = some (Json.obj (spreadMerge (baseMcpServers p actionsToken probe).1 g))
    ∧ (objLookup g k = none →
        objLookup (spreadMerge (baseMcpServers p actionsToken probe).1 g) k
          = objLookup (baseMcpServers p actionsToken probe).1 k)
    ∧ (∀ v, objLookup g k = some v →
        objLookup (spreadMerge (baseMcpServers p actionsToken probe).1 g) k
          = some v)
    ∧ spreadMerge [("a", Json.num 1), ("b", Json.num 2)]
        [("b", Json.num 3), ("c", Json.num 4)]
      = [("a", Json.num 1), ("b", Json.num 3), ("c", Json.num 4)] := by
  refine ⟨?_, ?_, ?_, rfl⟩
  · have htrim2 : (jsTrim s != "") = true := bne_iff_ne.mpr htrim
    simp only [prepareMcpConfig, hAdd, htrim2, if_true]
    rw [show jsGetProp (Json.obj f) "mcpServers" = some (Json.obj g) from hmcp]
    show jsGetProp (Json.obj _) "mcpServers" = _
    rw [show jsGetProp (Json.obj (spreadMerge
          (spreadMerge [("mcpServers",
            Json.obj (baseMcpServers p actionsToken probe).1)]
            (jsSpreadEntries (Json.obj f)))
          [("mcpServers", Json.obj (spreadMerge
            (baseMcpServers p actionsToken probe).1
            (jsSpreadEntries (Json.obj g))))])) "mcpServers"
        = objLookup (spreadMerge
          (spreadMerge [("mcpServers",
            Json.obj (baseMcpServers p actionsToken probe).1)]
            (jsSpreadEntries (Json.obj f)))
          [("mcpServers", Json.obj (spreadMerge
            (baseMcpServers p actionsToken probe).1
            (jsSpreadEntries (Json.obj g))))]) "mcpServers" from rfl]
    rw [objLookup_spreadMerge]
    rfl
  · intro h
    rw [objLookup_spreadMerge, h]
    rfl
  · intro v h
    rw [objLookup_spreadMerge, h]
    rfl

/-- Witness for C6 at a concrete override document. -/
theorem c6_witness :
    jsGetProp (prepareMcpConfig
        ⟨"t", "o", "r", "br", some "\x7b\"mcpServers\": \x7b\"b\": 3\x7d\x7d",
         none, [], false, false, none⟩
        none ProbeOutcome.ok
        (Except.ok (Json.obj [("mcpServers", Json.obj [("b", Json.num 3)])]))).config
        "mcpServers"
      = some (Json.obj (spreadMerge
          (baseMcpServers
            ⟨"t", "o", "r", "br", some "\x7b\"mcpServers\": \x7b\"b\": 3\x7d\x7d",
             none, [], false, false, none⟩ none ProbeOutcome.ok).1
          [("b", Json.num 3)]))
    ∧ spreadMerge [("a", Json.num 1), ("b", Json.num 2)]
        [("b", Json.num 3), ("c", Json.num 4)]
      = [("a", Json.num 1), ("b", Json.num 3), ("c", Json.num 4)] := by
  have h := c6_merge_override_wins
    ⟨"t", "o", "r", "br", some "\x7b\"mcpServers\": \x7b\"b\": 3\x7d\x7d",
     none, [], false, false, none⟩
    none ProbeOutcome.ok "\x7b\"mcpServers\": \x7b\"b\": 3\x7d\x7d"
    [("mcpServers", Json.obj [("b", Json.num 3)])] [("b", Json.num 3)]
    rfl (by decide) rfl "b"
  exact ⟨h.1, h.2.2.2⟩

/-- C7 counterexample: the additional config string "[0]" parses to a
top-level array, which is not a JSON object, yet the merge does not fall
back to the base config: no warning is emitted (warnings empty) and the
returned config gains an index key "0" that the base config lacks, because
the typeof check accepts arrays. -/
theorem c7_counterexample :
    (prepareMcpConfig
        ⟨"t", "o", "r", "br", some "[0]", none, [], false, false, none⟩
        none ProbeOutcome.ok (Except.ok (Json.arr [Json.num 0]))).warnings = []
    ∧ jsGetProp (prepareMcpConfig
        ⟨"t", "o", "r", "br", some "[0]", none, [], false, false, none⟩
        none ProbeOutcome.ok (Except.ok (Json.arr [Json.num 0]))).config "0"
      = some (Json.num 0)
    ∧ jsGetProp (Json.obj [("mcpServers", Json.obj (baseMcpServers
        ⟨"t", "o", "r", "br", some "[0]", none, [], false, false, none⟩
        none ProbeOutcome.ok).1)]) "0"
      = none :=
  ⟨rfl, rfl, rfl⟩

/-- C7 amended: when the additional configuration string fails to parse, or
parses to a top level that is null, a boolean, a number or a string, the
merge emits the parse warning and returns exactly the configuration built
so far; a top-level array, however, passes the typeof object check and is
spread-merged instead of being rejected. -/
theorem c7_amended_invalid_override_falls_back (p : PrepareConfigParams)
    (actionsToken : Option String) (probe : ProbeOutcome) (s : String)
    (hAdd : p.additionalMcpConfig = some s) (htrim : jsTrim s ≠ "") :
    (∀ e, prepareMcpConfig p actionsToken probe (Except.error e)
      = ⟨Json.obj [("mcpServers",
            Json.obj (baseMcpServers p actionsToken probe).1)],
         (baseMcpServers p actionsToken probe).2 ++ [parseWarning]⟩)
    ∧ (∀ v, jsTypeofObjectNotNull v = false →
        prepareMcpConfig p actionsToken probe (Except.ok v)
          = ⟨Json.obj [("mcpServers",
                Json.obj (baseMcpServers p actionsToken probe).1)],
             (baseMcpServers p actionsToken probe).2 ++ [parseWarning]⟩) := by
  have htrim2 : (jsTrim s != "") = true := bne_iff_ne.mpr htrim
  constructor
  · intro e
    simp [prepareMcpConfig, hAdd, htrim2]
  · intro v hv
    simp [prepareMcpConfig, hAdd, htrim2, hv]

/-- Witness for the amended C7 at a concrete unparseable string and a
concrete non-object document. -/
theorem c7_witness :
    prepareMcpConfig
        ⟨"t", "o", "r", "br", some "not json", none, [], false, false, none⟩
        none ProbeOutcome.ok (Except.error "SyntaxError")
      = ⟨Json.obj [("mcpServers", Json.obj (baseMcpServers
            ⟨"t", "o", "r", "br", some "not json", none, [], false, false, none⟩
            none ProbeOutcome.ok).1)],
         (baseMcpServers
            ⟨"t", "o", "r", "br", some "not json", none, [], false, false, none⟩
            none ProbeOutcome.ok).2 ++ [parseWarning]⟩
    ∧ prepareMcpConfig
        ⟨"t", "o", "r", "br", some "not json", none, [], false, false, none⟩
        none ProbeOutcome.ok (Except.ok (Json.num 5))
      = ⟨Json.obj [("mcpServers", Json.obj (baseMcpServers
            ⟨"t", "o", "r", "br", some "not json", none, [], false, false, none⟩
            none ProbeOutcome.ok).1)],
         (baseMcpServers
            ⟨"t", "o", "r", "br", some "not json", none, [], false, false, none⟩
            none ProbeOutcome.ok).2 ++ [parseWarning]⟩ := by
  have h := c7_amended_invalid_override_falls_back
    ⟨"t", "o", "r", "br", some "not json", none, [], false, false, none⟩
    none ProbeOutcome.ok "not json" rfl (by decide)
  exact ⟨h.1 "SyntaxError", h.2 (Json.num 5) rfl⟩

/-- C1 counterexample: on a pull-request event with actions read requested
but a credential failing the live probe (403 resource-not-accessible), the
warning is emitted AND the github_ci descriptor is still included in the
produced configuration; the claim that the configuration then contains no
CI descriptor is false. -/
theorem c1_counterexample :
    checkActionsReadPermission
        (ProbeOutcome.httpError 403 "Resource not accessible by integration")
      = false
    ∧ configHasServer (prepareMcpConfig
        ⟨"t", "o", "r", "br", none, none, [], true, false, some "read"⟩
        none (ProbeOutcome.httpError 403 "Resource not accessible by integration")
        (Except.error "")).config "github_ci"
      = true
    ∧ (prepareMcpConfig
        ⟨"t", "o", "r", "br", none, none, [], true, false, some "read"⟩
        none (ProbeOutcome.httpError 403 "Resource not accessible by integration")
        (Except.error "")).warnings
      = [permissionWarning] :=
  ⟨rfl, rfl, rfl⟩

/-- The warning list of the assembled base configuration: the permission
warning appears exactly when the event is a PR, actions read permission was
requested, and the live probe denies it. -/
theorem baseMcpServers_warnings (p : PrepareConfigParams)
    (actionsToken : Option String) (probe : ProbeOutcome) :
    (baseMcpServers p actionsToken probe).2
      = (if p.isPR && (p.additionalPermissionsActions == some "read")
            && !(checkActionsReadPermission probe)
         then [permissionWarning] else []) := by
  simp only [baseMcpServers]
  cases hc : p.isPR && (p.additionalPermissionsActions == some "read") <;>
    cases hchk : checkActionsReadPermission probe <;>
      cases htl : p.allowedTools.any
        (fun tool => "mcp__github__".isPrefixOf tool) <;>
        simp

/-- The github_ci descriptor is present in the assembled base configuration
exactly when the event is a PR and actions read permission was requested,
regardless of the probe's outcome. -/
theorem baseMcpServers_hasCi (p : PrepareConfigParams)
    (actionsToken : Option String) (probe : ProbeOutcome) :
    (objLookup (baseMcpServers p actionsToken probe).1 "github_ci").isSome
      = (p.isPR && (p.additionalPermissionsActions == some "read")) := by
  simp only [baseMcpServers]
  cases hc : p.isPR && (p.additionalPermissionsActions == some "read") <;>
    cases hsig : p.useCommitSigning <;>
      cases htl : p.allowedTools.any
        (fun tool => "mcp__github__".isPrefixOf tool) <;>
        rfl

/-- C1 amended: the github_ci descriptor is included exactly when the event
concerns a pull request and the caller requested actions read permission;
the live probe does not gate its inclusion.  When the probe fails, the
permission warning is emitted and the descriptor is nevertheless included;
the operation still succeeds. -/
theorem c1_amended_probe_does_not_gate (p : PrepareConfigParams)
    (actionsToken : Option String) (probe : ProbeOutcome)
    (parseResult : Except String Json) (hAdd : p.additionalMcpConfig = none) :
    configHasServer (prepareMcpConfig p actionsToken probe parseResult).config
        "github_ci"
      = (p.isPR && (p.additionalPermissionsActions == some "read"))
    ∧ (prepareMcpConfig p actionsToken probe parseResult).warnings
      = (if p.isPR && (p.additionalPermissionsActions == some "read")
            && !(checkActionsReadPermission probe)
         then [permissionWarning] else []) := by
  have hbase : prepareMcpConfig p actionsToken probe parseResult
      = ⟨Json.obj [("mcpServers",
            Json.obj (baseMcpServers p actionsToken probe).1)],
         (baseMcpServers p actionsToken probe).2⟩ := by
    simp [prepareMcpConfig, hAdd]
  rw [hbase]
  refine ⟨?_, baseMcpServers_warnings p actionsToken probe⟩
  show (jsGetProp (Json.obj (baseMcpServers p actionsToken probe).1)
      "github_ci").isSome = _
  exact baseMcpServers_hasCi p actionsToken probe

/-- Witness for the amended C1: probe denied, descriptor still present,
warning emitted. -/
theorem c1_witness :
    configHasServer (prepareMcpConfig
        ⟨"t", "o", "r", "br", none, none, [], true, false, some "read"⟩
        none (ProbeOutcome.httpError 403 "Resource not accessible by integration")
        (Except.error "")).config "github_ci"
      = true
    ∧ (prepareMcpConfig
        ⟨"t", "o", "r", "br", none, none, [], true, false, some "read"⟩
        none (ProbeOutcome.httpError 403 "Resource not accessible by integration")
        (Except.error "")).warnings
      = [permissionWarning] := by
  have h := c1_amended_probe_does_not_gate
    ⟨"t", "o", "r", "br", none, none, [], true, false, some "read"⟩
    none (ProbeOutcome.httpError 403 "Resource not accessible by integration")
    (Except.error "") rfl
  exact ⟨h.1, h.2⟩

end AiDevWorkflow
